import Mathlib

/-!
Verification of the captools CSV schema-reconciliation engine.

The definitions below are a shallow embedding of the validation logic in
`src/tools/validate-csv.js` and the richer copy of the same module in
`src/unnamed/part_000`:

* `getCsvHeaders` — reading and splitting the header row of a CSV file
  (file contents are passed as `Option String`, `none` standing for a
  read failure, which the source catches and turns into `[]`);
* `validateHeaderRow` — comparison of an entity's expected column set
  against the actual header row;
* `validateCsvFilenamesRun` — the filename-matching pass of the richer
  implementation (file-centric loop with function-like detection,
  entity-name case errors, filename case warnings and the informational
  missing-file pass);
* `validateCsvHeadersRun` — the header-validation pass shared by both
  implementations.

JavaScript string operations are modelled on `List Char` so that every
definition evaluates inside the kernel.  The returned console output is
reified as lists of `Finding` / `HeaderRecord` values; the mutable
`errors` / `warnings` counters become explicit components of the result.
The early `return` both runs perform when no CSV file was discovered is
modelled by an `Option` result, `none` standing for the aborted run.
-/

namespace Captools

/-! ## JavaScript string primitives on character lists -/

/-- Lexicographic comparison of character lists by code point, modelling
the default JavaScript string comparison used by `Array.prototype.sort`. -/
def ltCharList : List Char → List Char → Bool
  | [], [] => false
  | [], _ :: _ => true
  | _ :: _, [] => false
  | a :: as, b :: bs =>
    if a.toNat < b.toNat then true
    else if b.toNat < a.toNat then false
    else ltCharList as bs

/-- String comparison `a < b` by code points. -/
def strLt (a b : String) : Bool := ltCharList a.data b.data

/-- Insert a string into an already sorted list. -/
def insertSorted (x : String) : List String → List String
  | [] => [x]
  | y :: ys => if strLt y x then y :: insertSorted x ys else x :: y :: ys

/-- `Array.prototype.sort()` on a list of strings (insertion sort). -/
def sortStrings (l : List String) : List String := l.foldr insertSorted []

/-- `s.toLowerCase()`. -/
def jsToLower (s : String) : String := String.mk (s.data.map Char.toLower)

/-- `s.includes("_")`. -/
def hasUnderscore (s : String) : Bool := s.data.contains '_'

/-- `s.startsWith(p)`. -/
def strStartsWith (s p : String) : Bool := s.data.take p.data.length == p.data

/-- `s.endsWith(p)`. -/
def strEndsWith (s p : String) : Bool :=
  s.data.reverse.take p.data.length == p.data.reverse

/-- Replace every dot by a hyphen, as in the strict filename derivation. -/
def dotsToHyphens (s : String) : String :=
  String.mk (s.data.map (fun c => if c = '.' then '-' else c))

/-- Replace every hyphen by a dot, as in the entity-name recovery from a
file base name. -/
def hyphensToDots (s : String) : String :=
  String.mk (s.data.map (fun c => if c = '-' then '.' else c))

/-- Whitespace characters removed by `String.prototype.trim`. -/
def isWsChar (c : Char) : Bool := c = ' ' || c = '\t' || c = '\n' || c = '\r'

/-- `s.trim()` on a character list. -/
def trimChars (l : List Char) : List Char :=
  ((l.dropWhile isWsChar).reverse.dropWhile isWsChar).reverse

/-- `s.replace(/^"|"$/g, "")`: strip one leading and one trailing quote. -/
def stripOuterQuotes (l : List Char) : List Char :=
  let l1 := if l.head? = some '"' then l.tail else l
  if l1.getLast? = some '"' then l1.dropLast else l1

/-- `h.trim().replace(/^"|"$/g, "")` applied to one raw header cell. -/
def cleanHeader (l : List Char) : String := String.mk (stripOuterQuotes (trimChars l))

/-- `s.split(c)` on a character list; always returns a non-empty list. -/
def splitOnChar (c : Char) : List Char → List (List Char)
  | [] => [[]]
  | x :: xs =>
    match splitOnChar c xs with
    | [] => [[]]
    | h :: t => if x = c then [] :: h :: t else (x :: h) :: t

/-- `content.split(/\r?\n/)[0]`: the text before the first newline, with a
carriage return that immediately precedes that newline removed. -/
def firstLineChars (l : List Char) : List Char :=
  match splitOnChar '\n' l with
  | [] => []
  | [whole] => whole
  | h :: _ :: _ => if h.getLast? = some '\r' then h.dropLast else h

/-- `fileBaseName = actualName.replace(/\.csv$/i, "")`. -/
def stripCsvExtension (s : String) : String :=
  if strEndsWith (jsToLower s) ".csv" then String.mk (s.data.take (s.data.length - 4)) else s

/-- `h.split("_")[0]`: the part of a header before its first underscore. -/
def underscoreBase (s : String) : String :=
  match splitOnChar '_' s.data with
  | [] => ""
  | h :: _ => String.mk h

/-! ## The compiled model (CSN) -/

/-- `element.cardinality`. -/
structure Cardinality where
  max : String
deriving Repr, DecidableEq

/-- One element (field) of an entity definition: `type`, `key`, `virtual`,
the `@cds.persistence.skip` annotation flag, `cardinality` and `target`. -/
structure Element where
  type : String
  key : Bool
  virtual : Bool
  persistenceSkip : Bool
  cardinality : Option Cardinality
  target : Option String
deriving Repr, DecidableEq

/-- One definition of the compiled model: `kind`, the
`@cds.persistence.skip` flag and the ordered `elements` map
(JavaScript object key insertion order is modelled by list order). -/
structure EntityDef where
  kind : String
  persistenceSkip : Bool
  elements : List (String × Element)
deriving Repr, DecidableEq

/-- The compiled model: its ordered `definitions` map. -/
structure CSN where
  definitions : List (String × EntityDef)
deriving Repr, DecidableEq

/-- `csn.definitions[name]`. -/
def findDefinition (csn : CSN) (n : String) : Option EntityDef :=
  (csn.definitions.find? (fun p => p.1 == n)).map (fun p => p.2)

/-- `def.elements[name]`. -/
def findElement (d : EntityDef) (n : String) : Option Element :=
  (d.elements.find? (fun p => p.1 == n)).map (fun p => p.2)

/-- The fixed list of managed fields. -/
def managedFields : List String := ["createdAt", "createdBy", "modifiedAt", "modifiedBy"]

/-- `element.cardinality && element.cardinality.max === "*"`. -/
def isToMany (el : Element) : Bool :=
  match el.cardinality with
  | some c => c.max == "*"
  | none => false

/-! ## Reading the header row (`getCsvHeaders`) -/

/-- `getCsvHeaders`: read the first line of the file, split on `;` when one
occurs and on `,` otherwise, and trim/unquote each cell.  A read failure
(`none`) is caught and yields `[]`, as does an empty first line. -/
def getCsvHeaders (content : Option String) : List String :=
  match content with
  | none => []
  | some c =>
    let firstLine := firstLineChars c.data
    if firstLine.isEmpty then []
    else if firstLine.contains ';' then (splitOnChar ';' firstLine).map cleanHeader
    else (splitOnChar ',' firstLine).map cleanHeader

/-! ## Expected-column derivation -/

/-- Expected columns contributed by a resolved to-one association:
one `{fieldName}_{targetKeyName}` column per key field of the target. -/
def targetKeyColumns (csn : CSN) (name : String) (el : Element) : List String :=
  match el.target with
  | none => []
  | some t =>
    match findDefinition csn t with
    | none => []
    | some tgt => (tgt.elements.filter (fun p => p.2.key)).map (fun p => name ++ "_" ++ p.1)

/-- Expected columns contributed by one element, following the loop body of
`validateHeaderRow`: skip virtual / persistence-skipped / managed fields,
skip to-many associations and compositions, expand to-one associations
into composite foreign-key columns, and emit scalars under their own name. -/
def elementExpected (csn : CSN) (name : String) (el : Element) : List String :=
  if el.virtual || el.persistenceSkip then []
  else if managedFields.contains name then []
  else if el.type == "cds.Association" || el.type == "cds.Composition" then
    if isToMany el then []
    else if el.type == "cds.Composition" then []
    else targetKeyColumns csn name el
  else [name]

/-- The full expected column list of one entity, in element order. -/
def expectedColumns (csn : CSN) (d : EntityDef) : List String :=
  d.elements.foldr (fun p acc => elementExpected csn p.1 p.2 ++ acc) []

/-! ## Header reconciliation (`validateHeaderRow`) -/

/-- `missing`: expected columns absent from the actual headers. -/
def missingOf (csn : CSN) (d : EntityDef) (headers : List String) : List String :=
  (expectedColumns csn d).filter (fun e => !(headers.contains e))

/-- The `missingKeys` predicate: a missing column counts as a missing key
only when its name has no underscore (otherwise it is treated as an
association key) and the entity's element of that name is a key. -/
def isMissingKey (d : EntityDef) (e : String) : Bool :=
  if hasUnderscore e then false
  else
    match findElement d e with
    | some el => el.key
    | none => false

/-- `missingKeys`. -/
def missingKeysOf (csn : CSN) (d : EntityDef) (headers : List String) : List String :=
  (missingOf csn d headers).filter (isMissingKey d)

/-- `missingNonKeys`: the missing columns that are not missing keys. -/
def missingNonKeysOf (csn : CSN) (d : EntityDef) (headers : List String) : List String :=
  (missingOf csn d headers).filter (fun e => !((missingKeysOf csn d headers).contains e))

/-- The foreign-key tolerance for extra columns: a header of the form
`base_suffix` is tolerated when `base` names a to-one association or
composition of the entity. -/
def isValidFkHeader (d : EntityDef) (h : String) : Bool :=
  hasUnderscore h &&
    (match findElement d (underscoreBase h) with
     | some el =>
       (el.type == "cds.Association" || el.type == "cds.Composition") && !(isToMany el)
     | none => false)

/-- The case-insensitive tolerance for extra columns: the header matches
some element name of the entity up to lowercasing. -/
def matchesFieldCaseInsensitive (d : EntityDef) (h : String) : Bool :=
  d.elements.any (fun p => jsToLower p.1 == jsToLower h)

/-- The `extra` filter predicate of `validateHeaderRow`. -/
def isExtraHeader (csn : CSN) (d : EntityDef) (h : String) : Bool :=
  if managedFields.contains h then false
  else if (expectedColumns csn d).contains h then false
  else if isValidFkHeader d h then false
  else if matchesFieldCaseInsensitive d h then false
  else true

/-- `extra`: actual headers that match nothing in the schema. -/
def extraOf (csn : CSN) (d : EntityDef) (headers : List String) : List String :=
  headers.filter (isExtraHeader csn d)

/-- The `{hasErrors, hasWarnings}` object returned by `validateHeaderRow`. -/
structure HeaderResult where
  hasErrors : Bool
  hasWarnings : Bool
deriving Repr, DecidableEq

/-- `validateHeaderRow`: classify the header row of one file against one
entity.  `none` models the `return false` taken when the entity has no
definition.  `hasErrors` is set for extra columns or missing key columns;
`hasWarnings` is set for missing non-key columns, but only when
`traceLevel >= 1`. -/
def validateHeaderRow (content : Option String) (entityName : String) (csn : CSN)
    (traceLevel : Nat) : Option HeaderResult :=
  match findDefinition csn entityName with
  | none => none
  | some d =>
    let headers := getCsvHeaders content
    some ⟨!(extraOf csn d headers).isEmpty || !(missingKeysOf csn d headers).isEmpty,
          !(missingNonKeysOf csn d headers).isEmpty && decide (1 ≤ traceLevel)⟩

/-! ## Entity listing and file discovery -/

/-- The entity list both validation passes work on: definition names of
kind `entity`, not in the reserved `sap.common` namespace and not
persistence-skipped, sorted alphabetically. -/
def entityNames (csn : CSN) : List String :=
  sortStrings ((csn.definitions.filter (fun p =>
    p.2.kind == "entity" && !(strStartsWith p.1 "sap.common") && !p.2.persistenceSkip)).map
      (fun p => p.1))

/-- One discovered file: original name, lowercased name, source folder. -/
structure DiskFile where
  actualName : String
  lowerName : String
  folder : String
deriving Repr, DecidableEq

/-- File discovery over the candidate data folders: a folder that does not
exist (`none`) contributes no files; in an existing folder the entries
whose lowercased name ends in `.csv` are kept. -/
def discoverFiles (folders : List (String × Option (List String))) : List DiskFile :=
  folders.foldr (fun p acc =>
    (match p.2 with
     | none => []
     | some entries =>
       (entries.filter (fun f => strEndsWith (jsToLower f) ".csv")).map
         (fun f => DiskFile.mk f (jsToLower f) p.1)) ++ acc) []

/-- The strict expected filename of an entity: dots replaced by hyphens,
`.csv` appended. -/
def strictFileName (entityName : String) : String := dotsToHyphens entityName ++ ".csv"

/-! ## Filename validation (the richer implementation) -/

/-- Severity of one reified console record. -/
inductive Severity
  | error
  | warning
  | info
  | success
deriving Repr, DecidableEq

/-- One reified console record of the filename pass. -/
structure Finding where
  severity : Severity
  kind : String
  subject : String
deriving Repr, DecidableEq

/-- The lowercase entity-name lookup map: built by assigning
`entityLookup[name.toLowerCase()] = name` in order, so for entities whose
lowercased names collide the last one wins. -/
def entityLookup (entities : List String) (k : String) : Option String :=
  entities.foldl (fun acc n => if jsToLower n == k then some n else acc) none

/-- The body of the per-file loop of the richer `validateCsvFilenames`:
classify one discovered file and return its error increment, warning
increment and rendered records at the given trace level. -/
def processDiskFile (entities : List String) (traceLevel : Nat) (f : DiskFile) :
    Nat × Nat × List Finding :=
  let base := stripCsvExtension f.actualName
  if base.data.contains '.' then
    (0, 1, if 1 ≤ traceLevel then [⟨Severity.warning, "FUNCTION/ACTION CSV", f.actualName⟩]
           else [])
  else
    let entityNameFromFile := hyphensToDots base
    match entityLookup entities (jsToLower entityNameFromFile) with
    | none => (1, 0, [⟨Severity.error, "ENTITY NOT FOUND", f.actualName⟩])
    | some correct =>
      if f.actualName = strictFileName correct then
        (0, 0, if 2 ≤ traceLevel then [⟨Severity.success, "FILENAME OK", correct⟩] else [])
      else if entityNameFromFile ≠ correct then
        (1, 0, [⟨Severity.error, "ENTITY CASE ERROR", f.actualName⟩])
      else
        (0, 1, if 1 ≤ traceLevel then [⟨Severity.warning, "CASE MISMATCH", correct⟩] else [])

/-- The accumulated `errors` and `warnings` counters of the per-file loop. -/
def fileLoopCounts (entities : List String) (traceLevel : Nat) (diskFiles : List DiskFile) :
    Nat × Nat :=
  diskFiles.foldl (fun acc f =>
    let r := processDiskFile entities traceLevel f
    (acc.1 + r.1, acc.2 + r.2.1)) (0, 0)

/-- The records rendered by the per-file loop, in file order. -/
def fileLoopFindings (entities : List String) (traceLevel : Nat) (diskFiles : List DiskFile) :
    List Finding :=
  diskFiles.foldr (fun f acc => (processDiskFile entities traceLevel f).2.2 ++ acc) []

/-- The trailing pass of the richer `validateCsvFilenames`: one
informational record per entity without a strictly named file, rendered
only at trace level 2 and never counted. -/
def missingCsvFindings (entities : List String) (diskFiles : List DiskFile)
    (traceLevel : Nat) : List Finding :=
  entities.foldr (fun n acc =>
    (if !(diskFiles.any (fun f => f.actualName == strictFileName n)) && decide (2 ≤ traceLevel)
     then [⟨Severity.info, "NO CSV", n⟩] else []) ++ acc) []

/-- One run of the richer `validateCsvFilenames`: `none` models the early
return taken when no CSV file was discovered; otherwise the final error
and warning counts together with the records rendered on the way. -/
def validateCsvFilenamesRun (csn : CSN) (diskFiles : List DiskFile) (traceLevel : Nat) :
    Option (Nat × Nat × List Finding) :=
  if diskFiles.isEmpty then none
  else
    let ents := entityNames csn
    some ((fileLoopCounts ents traceLevel diskFiles).1,
          (fileLoopCounts ents traceLevel diskFiles).2,
          fileLoopFindings ents traceLevel diskFiles ++
            missingCsvFindings ents diskFiles traceLevel)

/-! ## Header validation run -/

/-- One `(entity, file, result)` outcome of the header pass. -/
structure HeaderRecord where
  entity : String
  file : String
  result : HeaderResult
deriving Repr, DecidableEq

/-- The per-entity step of `validateCsvHeaders`: reconcile the entity's
header row only when a file with exactly the strict name exists. -/
def headerRecordFor (csn : CSN) (diskFiles : List DiskFile)
    (readFile : String → String → Option String) (traceLevel : Nat) (n : String) :
    Option HeaderRecord :=
  match diskFiles.find? (fun f => f.actualName == strictFileName n) with
  | none => none
  | some f =>
    (validateHeaderRow (readFile f.folder f.actualName) n csn traceLevel).map
      (fun r => ⟨n, f.actualName, r⟩)

/-- One run of `validateCsvHeaders` (identical in both implementations):
`none` models the early return on an empty file list; otherwise the final
counts — the number of processed entities with `hasErrors`, respectively
`hasWarnings` — together with the per-entity outcomes in entity order.
`readFile` maps a folder and file name to the file's content, `none`
standing for a read failure. -/
def validateCsvHeadersRun (csn : CSN) (diskFiles : List DiskFile)
    (readFile : String → String → Option String) (traceLevel : Nat) :
    Option (Nat × Nat × List HeaderRecord) :=
  if diskFiles.isEmpty then none
  else
    let recs := (entityNames csn).filterMap (headerRecordFor csn diskFiles readFile traceLevel)
    some (recs.countP (fun t => t.result.hasErrors),
          recs.countP (fun t => t.result.hasWarnings), recs)

/-- The records of a possibly aborted run (an aborted run rendered none). -/
def runRecords (r : Option (Nat × Nat × List HeaderRecord)) : List HeaderRecord :=
  match r with
  | none => []
  | some t => t.2.2

/-- The findings of a possibly aborted filename run. -/
def runFindings (r : Option (Nat × Nat × List Finding)) : List Finding :=
  match r with
  | none => []
  | some t => t.2.2

/-- The predicate for an informational record about one entity. -/
def isInfoAbout (e : String) (fd : Finding) : Bool :=
  fd.severity == Severity.info && fd.subject == e

/-! ## Concrete fixtures -/

/-- A plain scalar element of type `cds.String`. -/
def scalarElement (isKey : Bool) : Element := ⟨"cds.String", isKey, false, false, none, none⟩

/-- The entity `sales.Order` of Scenario A: key field `ID`, scalar field
`status`. -/
def orderDef : EntityDef := ⟨"entity", false, [("ID", scalarElement true), ("status", scalarElement false)]⟩

/-- A model holding only `sales.Order`. -/
def csn0 : CSN := ⟨[("sales.Order", orderDef)]⟩

/-- A discovered file `sales-Order.csv`, the strict name for `sales.Order`. -/
def files0 : List DiskFile := [⟨"sales-Order.csv", "sales-order.csv", "db/data"⟩]

/-- A reader that returns the header row `ID` for every file. -/
def readFileId : String → String → Option String := fun _ _ => some "ID"

/-- A reader that fails on every file. -/
def readFileFail : String → String → Option String := fun _ _ => none

/-- The entity `sales.Customer`, whose key `ID` is a primary key. -/
def customerDef : EntityDef := ⟨"entity", false, [("ID", scalarElement true)]⟩

/-- A to-one association element targeting `sales.Customer`. -/
def assocElement : Element := ⟨"cds.Association", false, false, false, none, some "sales.Customer"⟩

/-- The entity `sales.Invoice`: key `ID` and to-one association
`customer`. -/
def invoiceDef : EntityDef :=
  ⟨"entity", false, [("ID", scalarElement true), ("customer", assocElement)]⟩

/-- A model holding `sales.Customer` and `sales.Invoice`. -/
def csn1 : CSN := ⟨[("sales.Customer", customerDef), ("sales.Invoice", invoiceDef)]⟩

/-- The entity `sales.Ledger`, whose scalar key field is named
`ORDER_ID` — a key name that itself contains an underscore. -/
def ledgerDef : EntityDef := ⟨"entity", false, [("ORDER_ID", scalarElement true)]⟩

/-- A model holding only `sales.Ledger`. -/
def csn2 : CSN := ⟨[("sales.Ledger", ledgerDef)]⟩

/-! ## Helper lemmas -/

/-- The `hasErrors` component of a header reconciliation does not depend
on the trace level. -/
theorem validateHeaderRow_hasErrors_level (c : Option String) (n : String) (csn : CSN)
    (l₁ l₂ : Nat) :
    (validateHeaderRow c n csn l₁).map HeaderResult.hasErrors =
      (validateHeaderRow c n csn l₂).map HeaderResult.hasErrors := by
  unfold validateHeaderRow
  cases findDefinition csn n <;> rfl

/-- At trace levels of at least 1 the header reconciliation result does
not depend on the trace level. -/
theorem validateHeaderRow_level_ge_one (c : Option String) (n : String) (csn : CSN)
    (l₁ l₂ : Nat) (h₁ : 1 ≤ l₁) (h₂ : 1 ≤ l₂) :
    validateHeaderRow c n csn l₁ = validateHeaderRow c n csn l₂ := by
  unfold validateHeaderRow
  cases findDefinition csn n
  · rfl
  · simp [h₁, h₂]

/-- Counting after `filterMap` only depends on the counted projection of
the mapped values. -/
theorem countP_filterMap_congr {α β : Type} (g : β → Bool) (f₁ f₂ : α → Option β)
    (h : ∀ a, (f₁ a).map g = (f₂ a).map g) (l : List α) :
    (l.filterMap f₁).countP g = (l.filterMap f₂).countP g := by
  induction l with
  | nil => rfl
  | cons a as ih =>
    have ha := h a
    cases h₁ : f₁ a with
    | none =>
      cases h₂ : f₂ a with
      | none => simpa [List.filterMap_cons, h₁, h₂] using ih
      | some b => rw [h₁, h₂] at ha; simp at ha
    | some b =>
      cases h₂ : f₂ a with
      | none => rw [h₁, h₂] at ha; simp at ha
      | some b2 =>
        rw [h₁, h₂] at ha
        simp only [Option.map_some', Option.some.injEq] at ha
        simp [List.filterMap_cons, h₁, h₂, List.countP_cons, ha, ih]

/-- The per-entity `hasErrors` outcome of the header pass is independent
of the trace level. -/
theorem headerRecordFor_hasErrors_level (csn : CSN) (diskFiles : List DiskFile)
    (rf : String → String → Option String) (l₁ l₂ : Nat) (n : String) :
    (headerRecordFor csn diskFiles rf l₁ n).map (fun t => t.result.hasErrors) =
      (headerRecordFor csn diskFiles rf l₂ n).map (fun t => t.result.hasErrors) := by
  unfold headerRecordFor
  cases diskFiles.find? (fun f => f.actualName == strictFileName n) with
  | none => rfl
  | some f =>
    rw [Option.map_map, Option.map_map]
    exact validateHeaderRow_hasErrors_level (rf f.folder f.actualName) n csn l₁ l₂

/-- A reconciliation whose missing/extra classes are all empty reports a
clean result at every trace level. -/
theorem validateHeaderRow_clean (content : Option String) (n : String) (csn : CSN)
    (d : EntityDef) (lvl : Nat) (hd : findDefinition csn n = some d)
    (hk : (missingKeysOf csn d (getCsvHeaders content)).isEmpty = true)
    (hn : (missingNonKeysOf csn d (getCsvHeaders content)).isEmpty = true)
    (he : (extraOf csn d (getCsvHeaders content)).isEmpty = true) :
    validateHeaderRow content n csn lvl = some ⟨false, false⟩ := by
  simp [validateHeaderRow, hd, hk, hn, he]

/-! ## Claims -/

/-- C1 (counterexample): the claim that the `(errorCount, warningCount)`
pair of one header-reconciliation run is the same at verbosity 0, 1 and 2
fails on the code: for `sales.Order` with header row `ID` the non-key
column `status` is missing, and the run counts the warning at verbosity 1
but not at verbosity 0. -/
theorem c1_counterexample :
    (validateCsvHeadersRun csn0 files0 readFileId 0).map (fun t => (t.1, t.2.1)) ≠
      (validateCsvHeadersRun csn0 files0 readFileId 1).map (fun t => (t.1, t.2.1)) := by decide

/-- C1 (amended): the verbosity threshold never affects the error count of
a header-reconciliation run, and runs at verbosity 1 and 2 (or any two
levels at least 1) agree on counts and records; only the warning count at
verbosity 0 deviates, because a missing-non-key warning is only recorded
when `traceLevel >= 1`. -/
theorem c1_verbosity_classification (csn : CSN) (diskFiles : List DiskFile)
    (rf : String → String → Option String) (l₁ l₂ : Nat) :
    (validateCsvHeadersRun csn diskFiles rf l₁).map (fun t => t.1) =
      (validateCsvHeadersRun csn diskFiles rf l₂).map (fun t => t.1) ∧
    (1 ≤ l₁ → 1 ≤ l₂ →
      validateCsvHeadersRun csn diskFiles rf l₁ = validateCsvHeadersRun csn diskFiles rf l₂) := by
  constructor
  · cases diskFiles with
    | nil => rfl
    | cons f fs =>
      exact congrArg some
        (countP_filterMap_congr _ _ _ (headerRecordFor_hasErrors_level csn (f :: fs) rf l₁ l₂) _)
  · intro h₁ h₂
    have hfr : headerRecordFor csn diskFiles rf l₁ = headerRecordFor csn diskFiles rf l₂ := by
      funext n
      unfold headerRecordFor
      cases diskFiles.find? (fun f => f.actualName == strictFileName n) with
      | none => rfl
      | some f =>
        dsimp only
        rw [validateHeaderRow_level_ge_one (rf f.folder f.actualName) n csn l₁ l₂ h₁ h₂]
    simp only [validateCsvHeadersRun, hfr]

/-- C1 (witness): the amended equality instantiated at verbosity 1 and 2
on the `sales.Order` fixture. -/
theorem c1_witness :
    (1 ≤ (1 : Nat)) ∧
      validateCsvHeadersRun csn0 files0 readFileId 1 =
        validateCsvHeadersRun csn0 files0 readFileId 2 :=
  ⟨by decide, (c1_verbosity_classification csn0 files0 readFileId 1 2).2 (by decide) (by decide)⟩

/-- C2 (counterexample): for entity `sales.Order` with key field `ID` and
scalar field `status`, the file `sales-Order.csv` with header row
`id,status` is NOT reported clean: the presence check of expected columns
is case-sensitive, so the key column `ID` is reported missing (an error);
the lowercased `id` itself is tolerated as a case mismatch, not extra. -/
theorem c2_counterexample :
    validateHeaderRow (some "id,status") "sales.Order" csn0 1 = some ⟨true, false⟩ := by decide

/-- C2 (amended): with the header row `ID,status`, matching the schema's
exact casing, header reconciliation of `sales.Order` reports zero errors
and zero warnings at every verbosity level. -/
theorem c2_exact_case_header (lvl : Nat) :
    validateHeaderRow (some "ID,status") "sales.Order" csn0 lvl = some ⟨false, false⟩ :=
  validateHeaderRow_clean _ _ _ orderDef lvl (by decide) (by decide) (by decide) (by decide)

/-- C3 (counterexample): a file whose content cannot be read is NOT
skipped by header reconciliation and does contribute findings: on the
`sales.Order` fixture with a failing reader, the run completes but counts
one header error (every expected column, key `ID` included, is reported
missing), with no separate report of the read failure. -/
theorem c3_counterexample :
    validateCsvHeadersRun csn0 files0 readFileFail 0 =
      some (1, 0, [⟨"sales.Order", "sales-Order.csv", ⟨true, false⟩⟩]) := by decide

/-- C3 (amended): a read failure is silently translated into an empty
header list — indistinguishable from an empty file — and reconciliation
still runs over it, classifying every expected column as missing; no
exception escapes, so the run always completes with final counts. -/
theorem c3_read_failure (csn : CSN) (d : EntityDef) (n : String) (lvl : Nat) :
    getCsvHeaders none = [] ∧
    missingOf csn d (getCsvHeaders none) = expectedColumns csn d ∧
    validateHeaderRow none n csn lvl = validateHeaderRow (some "") n csn lvl := by
  refine ⟨rfl, ?_, rfl⟩
  simp [missingOf, getCsvHeaders, List.contains]

/-- C8: reconciliation is deterministic — the counts and record sequences
of a first and of a second run on identical inputs (same model, same
discovered files and contents, same verbosity) are equal.  Both runs are
embedded as pure functions of their inputs, so the two runs denote one
and the same value. -/
theorem c8_deterministic (csn : CSN) (diskFiles : List DiskFile)
    (rf : String → String → Option String) (lvl : Nat) :
    validateCsvFilenamesRun csn diskFiles lvl = validateCsvFilenamesRun csn diskFiles lvl ∧
    validateCsvHeadersRun csn diskFiles rf lvl = validateCsvHeadersRun csn diskFiles rf lvl :=
  ⟨rfl, rfl⟩

/-- C4: in the filename pass, a discovered file matched to an entity whose
recovered name (hyphens turned back into dots) differs from the canonical
entity name — necessarily only in case, since the lookup is
case-insensitive — is classified as an error; when the recovered entity
name matches exactly and only the filename string differs from the strict
derived filename (in its extension casing), it is classified as a
warning. -/
theorem c4_case_mismatch_classification (entities : List String) (lvl : Nat) (f : DiskFile)
    (correct : String)
    (hdot : (stripCsvExtension f.actualName).data.contains '.' = false)
    (hlook : entityLookup entities (jsToLower (hyphensToDots (stripCsvExtension f.actualName))) =
      some correct)
    (hne : f.actualName ≠ strictFileName correct) :
    (hyphensToDots (stripCsvExtension f.actualName) ≠ correct →
      processDiskFile entities lvl f =
        (1, 0, [⟨Severity.error, "ENTITY CASE ERROR", f.actualName⟩])) ∧
    (hyphensToDots (stripCsvExtension f.actualName) = correct →
      (processDiskFile entities lvl f).1 = 0 ∧ (processDiskFile entities lvl f).2.1 = 1) := by
  have hdot2 : '.' ∉ (stripCsvExtension f.actualName).data := by simpa using hdot
  constructor
  · intro hcase
    simp [processDiskFile, hdot2, hlook, hne, hcase]
  · intro hcase
    rw [hcase] at hlook
    simp [processDiskFile, hdot2, hlook, hne, hcase]

/-- C4 (witness): the file `sales-order.csv` for entity `sales.Order`
differs from the canonical entity name in case and is classified as an
error with increment 1. -/
theorem c4_witness :
    ((stripCsvExtension "sales-order.csv").data.contains '.' = false) ∧
      entityLookup ["sales.Order"] (jsToLower (hyphensToDots (stripCsvExtension "sales-order.csv"))) =
        some "sales.Order" ∧
      processDiskFile ["sales.Order"] 1 ⟨"sales-order.csv", "sales-order.csv", "db/data"⟩ =
        (1, 0, [⟨Severity.error, "ENTITY CASE ERROR", "sales-order.csv"⟩]) :=
  ⟨by decide, by decide,
    (c4_case_mismatch_classification ["sales.Order"] 1
        ⟨"sales-order.csv", "sales-order.csv", "db/data"⟩ "sales.Order"
        (by decide) (by decide) (by decide)).1 (by decide)⟩

/-- C10: the header pass reconciles a header row only for an
(entity, file) pair whose file name equals, character for character and
case included, the entity's strict derived filename; consequently every
emitted header record names a file that is the strict filename of its
entity, so files that match an entity only case-insensitively or without
the namespace produce no header findings. -/
theorem c10_strict_match_only (csn : CSN) (diskFiles : List DiskFile)
    (rf : String → String → Option String) (lvl : Nat) (rec : HeaderRecord)
    (hmem : rec ∈ runRecords (validateCsvHeadersRun csn diskFiles rf lvl)) :
    rec.file = strictFileName rec.entity ∧
      ∃ f ∈ diskFiles, f.actualName = strictFileName rec.entity := by
  cases diskFiles with
  | nil => simp [validateCsvHeadersRun, runRecords] at hmem
  | cons f0 fs =>
    have hmem2 : rec ∈ (entityNames csn).filterMap (headerRecordFor csn (f0 :: fs) rf lvl) :=
      hmem
    rw [List.mem_filterMap] at hmem2
    obtain ⟨n, _, hrec⟩ := hmem2
    unfold headerRecordFor at hrec
    cases hfind : (f0 :: fs).find? (fun f => f.actualName == strictFileName n) with
    | none => rw [hfind] at hrec; exact absurd hrec (by simp)
    | some f =>
      rw [hfind] at hrec
      dsimp only at hrec
      cases hv : validateHeaderRow (rf f.folder f.actualName) n csn lvl with
      | none => rw [hv] at hrec; exact absurd hrec (by simp)
      | some r =>
        rw [hv] at hrec
        simp only [Option.map_some', Option.some.injEq] at hrec
        have hp := List.find?_some hfind
        have hfmem : f ∈ f0 :: fs := List.mem_of_find?_eq_some hfind
        have hname : f.actualName = strictFileName n := by
          simpa [beq_iff_eq] using hp
        subst hrec
        exact ⟨hname, f, hfmem, hname⟩

/-- C10 (witness): the single record of the fixture run names the file
`sales-Order.csv`, which is exactly the strict filename of `sales.Order`. -/
theorem c10_witness :
    ((⟨"sales.Order", "sales-Order.csv", ⟨false, true⟩⟩ : HeaderRecord) ∈
        runRecords (validateCsvHeadersRun csn0 files0 readFileId 1)) ∧
      ("sales-Order.csv" = strictFileName "sales.Order" ∧
        ∃ f ∈ files0, f.actualName = strictFileName "sales.Order") :=
  ⟨by decide,
    c10_strict_match_only csn0 files0 readFileId 1
      ⟨"sales.Order", "sales-Order.csv", ⟨false, true⟩⟩ (by decide)⟩

/-! ## Membership lemmas for the expected-column derivation -/

/-- Membership in a foldr of appends comes from one of the generators. -/
theorem mem_foldr_append {α β : Type} (g : α → List β) (l : List α) (col : β)
    (h : col ∈ l.foldr (fun p acc => g p ++ acc) []) : ∃ p ∈ l, col ∈ g p := by
  induction l with
  | nil => simp at h
  | cons x xs ih =>
    simp only [List.foldr_cons, List.mem_append] at h
    rcases h with h | h
    · exact ⟨x, List.mem_cons_self x xs, h⟩
    · obtain ⟨p, hp, hmem⟩ := ih h
      exact ⟨p, List.mem_cons_of_mem x hp, hmem⟩

/-- Membership in one generator puts the column into the foldr of appends. -/
theorem mem_foldr_append_of_mem {α β : Type} (g : α → List β) (l : List α) (p : α)
    (col : β) (hp : p ∈ l) (h : col ∈ g p) :
    col ∈ l.foldr (fun q acc => g q ++ acc) [] := by
  induction l with
  | nil => cases hp
  | cons x xs ih =>
    simp only [List.foldr_cons, List.mem_append]
    rcases List.mem_cons.mp hp with rfl | hp2
    · exact Or.inl h
    · exact Or.inr (ih hp2)

/-- A composite foreign-key column name always contains an underscore. -/
theorem hasUnderscore_fk (a b : String) : hasUnderscore (a ++ "_" ++ b) = true := by
  simp [hasUnderscore, String.data_append]

/-- Every column contributed by a to-one association derivation contains
an underscore. -/
theorem hasUnderscore_of_mem_targetKeyColumns {csn : CSN} {name col : String} {el : Element}
    (h : col ∈ targetKeyColumns csn name el) : hasUnderscore col = true := by
  unfold targetKeyColumns at h
  split at h
  · simp at h
  · split at h
    · simp at h
    · rw [List.mem_map] at h
      obtain ⟨p, _, hp⟩ := h
      subst hp
      exact hasUnderscore_fk name p.1

/-- A column contributed by an element whose type is an association
contains an underscore. -/
theorem mem_elementExpected_assoc {csn : CSN} {name col : String} {el : Element}
    (htype : el.type = "cds.Association") (h : col ∈ elementExpected csn name el) :
    hasUnderscore col = true := by
  unfold elementExpected at h
  split at h
  · simp at h
  · split at h
    · simp at h
    · split at h
      · split at h
        · simp at h
        · split at h
          · simp at h
          · exact hasUnderscore_of_mem_targetKeyColumns h
      · next hcond => exact absurd (by simp [htype]) hcond

/-- Every expected column either is the (non-managed) name of the
generating element or contains an underscore. -/
theorem mem_elementExpected_shape {csn : CSN} {name col : String} {el : Element}
    (h : col ∈ elementExpected csn name el) :
    (col = name ∧ managedFields.contains name = false) ∨ hasUnderscore col = true := by
  unfold elementExpected at h
  split at h
  · simp at h
  · split at h
    · simp at h
    · split at h
      · split at h
        · simp at h
        · split at h
          · simp at h
          · exact Or.inr (hasUnderscore_of_mem_targetKeyColumns h)
      · next hman _ =>
        left
        simp only [List.mem_singleton] at h
        exact ⟨h, by simpa using hman⟩

/-- A missing column containing an underscore is demoted: it lands in the
missing-non-key class and never in the missing-key class. -/
theorem underscore_missing_demoted (csn : CSN) (d : EntityDef) (headers : List String)
    (col : String) (hmiss : col ∈ missingOf csn d headers) (hu : hasUnderscore col = true) :
    col ∈ missingNonKeysOf csn d headers ∧ col ∉ missingKeysOf csn d headers := by
  have hnk : col ∉ missingKeysOf csn d headers := by
    intro hcon
    have h2 := (List.mem_filter.mp hcon).2
    simp [isMissingKey, hu] at h2
  refine ⟨List.mem_filter.mpr ⟨hmiss, ?_⟩, hnk⟩
  simpa using hnk

/-- C5: a composite foreign-key column, derived as
`{fieldName}_{targetKeyName}` from a to-one association, that is absent
from the header row is never classified into `missingKeys` and never
lands in `extra` — the two classes driving `hasErrors` — even when the
referenced target's key is itself a primary key; instead it lands in the
`missingNonKeys` class, which drives warnings only. -/
theorem c5_composite_fk_demoted (csn : CSN) (d : EntityDef) (headers : List String)
    (name col : String) (el : Element) (hmem : (name, el) ∈ d.elements)
    (htype : el.type = "cds.Association")
    (hcol : col ∈ elementExpected csn name el)
    (habs : headers.contains col = false) :
    col ∉ missingKeysOf csn d headers ∧ col ∉ extraOf csn d headers ∧
      col ∈ missingNonKeysOf csn d headers := by
  have hu : hasUnderscore col = true := mem_elementExpected_assoc htype hcol
  have hexp : col ∈ expectedColumns csn d := by
    unfold expectedColumns
    exact mem_foldr_append_of_mem _ d.elements (name, el) col hmem hcol
  have hmiss : col ∈ missingOf csn d headers :=
    List.mem_filter.mpr ⟨hexp, by simpa using habs⟩
  obtain ⟨hmnk, hnk⟩ := underscore_missing_demoted csn d headers col hmiss hu
  refine ⟨hnk, ?_, hmnk⟩
  intro hcon
  have hhd : col ∈ headers := List.mem_of_mem_filter hcon
  have : headers.contains col = true := by simpa using hhd
  rw [habs] at this
  cases this

/-- C5 (witness): in a model where `sales.Invoice` has a to-one
association `customer` targeting `sales.Customer`, whose key `ID` is a
primary key, the derived column `customer_ID` absent from the header
`ID` is only a missing non-key (warning), not a missing key or extra. -/
theorem c5_witness :
    (("customer", assocElement) ∈ invoiceDef.elements ∧
        "customer_ID" ∈ elementExpected csn1 "customer" assocElement ∧
        (["ID"] : List String).contains "customer_ID" = false) ∧
      ("customer_ID" ∉ missingKeysOf csn1 invoiceDef ["ID"] ∧
        "customer_ID" ∉ extraOf csn1 invoiceDef ["ID"] ∧
        "customer_ID" ∈ missingNonKeysOf csn1 invoiceDef ["ID"]) :=
  ⟨⟨by decide, by decide, by decide⟩,
    c5_composite_fk_demoted csn1 invoiceDef ["ID"] "customer" "customer_ID" assocElement
      (by decide) rfl (by decide) (by decide)⟩

/-- C6: the managed columns `createdAt`, `createdBy`, `modifiedAt` and
`modifiedBy` are never expected, hence never reported missing, and are
filtered out of the extra class, hence never reported extra — whatever
the model, the header row and the managed column's presence in it. -/
theorem c6_managed_columns (csn : CSN) (d : EntityDef) (headers : List String) (m : String)
    (hm : m ∈ managedFields) :
    m ∉ expectedColumns csn d ∧ m ∉ missingOf csn d headers ∧ m ∉ extraOf csn d headers := by
  have hmc : managedFields.contains m = true := by simpa using hm
  have hexp : m ∉ expectedColumns csn d := by
    intro hcon
    unfold expectedColumns at hcon
    obtain ⟨p, _, hmem⟩ := mem_foldr_append _ d.elements m hcon
    rcases mem_elementExpected_shape hmem with ⟨rfl, hmf⟩ | hu
    · rw [hmc] at hmf; cases hmf
    · have hnu : hasUnderscore m = false := by
        fin_cases hm <;> decide
      rw [hu] at hnu; cases hnu
  refine ⟨hexp, ?_, ?_⟩
  · intro hcon
    exact hexp (List.mem_of_mem_filter hcon)
  · intro hcon
    have h2 := (List.mem_filter.mp hcon).2
    simp [isExtraHeader] at h2
    exact h2.1 hm

/-- C6 (witness): the managed column `createdAt` on the `sales.Order`
fixture, with a header row that does contain it, is neither expected nor
missing nor extra. -/
theorem c6_witness :
    ("createdAt" ∈ managedFields) ∧
      ("createdAt" ∉ expectedColumns csn0 orderDef ∧
        "createdAt" ∉ missingOf csn0 orderDef ["ID", "status", "createdAt"] ∧
        "createdAt" ∉ extraOf csn0 orderDef ["ID", "status", "createdAt"]) :=
  ⟨by decide, c6_managed_columns csn0 orderDef ["ID", "status", "createdAt"] "createdAt"
    (by decide)⟩

/-- C9: a scalar key field whose own name contains an underscore is, when
absent from the header row, classified as a missing non-key (warning)
and never as a missing key (error): the demotion heuristic keys on the
underscore in the column name alone, regardless of how the name arose. -/
theorem c9_underscore_key_demoted (csn : CSN) (d : EntityDef) (headers : List String)
    (name : String) (el : Element) (hmem : (name, el) ∈ d.elements)
    (hv : el.virtual = false) (hs : el.persistenceSkip = false)
    (hman : managedFields.contains name = false)
    (hta : el.type ≠ "cds.Association") (htc : el.type ≠ "cds.Composition")
    (hkey : el.key = true) (hu : hasUnderscore name = true)
    (habs : headers.contains name = false) :
    name ∈ missingNonKeysOf csn d headers ∧ name ∉ missingKeysOf csn d headers := by
  have hman2 : name ∉ managedFields := by simpa using hman
  have hcol : name ∈ elementExpected csn name el := by
    simp [elementExpected, hv, hs, hman2, hta, htc]
  have hexp : name ∈ expectedColumns csn d := by
    unfold expectedColumns
    exact mem_foldr_append_of_mem _ d.elements (name, el) name hmem hcol
  have hmiss : name ∈ missingOf csn d headers :=
    List.mem_filter.mpr ⟨hexp, by simpa using habs⟩
  exact underscore_missing_demoted csn d headers name hmiss hu

/-- C9 (witness): the entity `sales.Ledger` with scalar key field
`ORDER_ID`, missing from an empty header row, yields a missing non-key
warning and no missing-key error. -/
theorem c9_witness :
    (("ORDER_ID", scalarElement true) ∈ ledgerDef.elements ∧
        (scalarElement true).key = true ∧ hasUnderscore "ORDER_ID" = true) ∧
      ("ORDER_ID" ∈ missingNonKeysOf csn2 ledgerDef [] ∧
        "ORDER_ID" ∉ missingKeysOf csn2 ledgerDef []) :=
  ⟨⟨by decide, by decide, by decide⟩,
    c9_underscore_key_demoted csn2 ledgerDef [] "ORDER_ID" (scalarElement true)
      (by decide) rfl rfl (by decide) (by decide) (by decide) rfl (by decide) (by decide)⟩

/-! ## The informational missing-file pass -/

/-- Inserting into a sorted list permutes consing. -/
theorem perm_insertSorted (x : String) (l : List String) :
    (insertSorted x l).Perm (x :: l) := by
  induction l with
  | nil => exact List.Perm.refl _
  | cons y ys ih =>
    simp only [insertSorted]
    split
    · exact (ih.cons y).trans (List.Perm.swap x y ys)
    · exact List.Perm.refl _

/-- Sorting permutes the input list. -/
theorem perm_sortStrings (l : List String) : (sortStrings l).Perm l := by
  induction l with
  | nil => exact List.Perm.refl _
  | cons x xs ih => exact (perm_insertSorted x (sortStrings xs)).trans (ih.cons x)

/-- When the model's definition names are unique, the sorted entity list
has no duplicates. -/
theorem entityNames_nodup (csn : CSN)
    (hnd : (csn.definitions.map (fun p => p.1)).Nodup) : (entityNames csn).Nodup := by
  have h1 : ((csn.definitions.filter (fun p =>
      p.2.kind == "entity" && !(strStartsWith p.1 "sap.common") && !p.2.persistenceSkip)).map
        (fun p => p.1)).Nodup :=
    hnd.sublist ((List.filter_sublist csn.definitions).map _)
  exact (perm_sortStrings _).nodup_iff.mpr h1

/-- No record of the per-file loop is informational: every branch of the
per-file classification renders warnings, errors or successes only. -/
theorem processDiskFile_no_info (entities : List String) (lvl : Nat) (f : DiskFile)
    (fd : Finding) (h : fd ∈ (processDiskFile entities lvl f).2.2) :
    fd.severity ≠ Severity.info := by
  unfold processDiskFile at h
  by_cases h1 : (stripCsvExtension f.actualName).data.contains '.' = true
  · rw [if_pos h1] at h
    dsimp only at h
    split at h
    · simp at h; subst h; simp
    · simp at h
  · rw [if_neg h1] at h
    dsimp only at h
    cases hlk : entityLookup entities
        (jsToLower (hyphensToDots (stripCsvExtension f.actualName))) with
    | none =>
      rw [hlk] at h
      simp at h; subst h; simp
    | some correct =>
      rw [hlk] at h
      dsimp only at h
      by_cases h2 : f.actualName = strictFileName correct
      · rw [if_pos h2] at h
        dsimp only at h
        split at h
        · simp at h; subst h; simp
        · simp at h
      · rw [if_neg h2] at h
        by_cases h3 : hyphensToDots (stripCsvExtension f.actualName) ≠ correct
        · rw [if_pos h3] at h
          simp at h; subst h; simp
        · rw [if_neg h3] at h
          dsimp only at h
          split at h
          · simp at h; subst h; simp
          · simp at h

/-- No record of the whole per-file loop is informational. -/
theorem fileLoopFindings_no_info (entities : List String) (lvl : Nat)
    (diskFiles : List DiskFile) (fd : Finding)
    (h : fd ∈ fileLoopFindings entities lvl diskFiles) : fd.severity ≠ Severity.info := by
  unfold fileLoopFindings at h
  obtain ⟨f, _, hmem⟩ := mem_foldr_append _ diskFiles fd h
  exact processDiskFile_no_info entities lvl f fd hmem

/-- The missing-file pass on a cons cell: the head entity's contribution
followed by the rest. -/
theorem missingCsvFindings_cons (n : String) (ns : List String) (diskFiles : List DiskFile)
    (lvl : Nat) :
    missingCsvFindings (n :: ns) diskFiles lvl =
      (if (!(diskFiles.any (fun f => f.actualName == strictFileName n)) &&
            decide (2 ≤ lvl)) = true
       then [⟨Severity.info, "NO CSV", n⟩] else []) ++ missingCsvFindings ns diskFiles lvl :=
  rfl

/-- Below trace level 2 the missing-file pass renders nothing. -/
theorem missingCsvFindings_low_level (entities : List String) (diskFiles : List DiskFile)
    (lvl : Nat) (hl : lvl < 2) : missingCsvFindings entities diskFiles lvl = [] := by
  induction entities with
  | nil => rfl
  | cons n ns ih =>
    have hd : decide (2 ≤ lvl) = false := by simp; omega
    rw [missingCsvFindings_cons, ih, hd]
    simp

/-- An entity outside the list is never the subject of a missing-file
record. -/
theorem missingCsvFindings_count_notMem (entities : List String) (diskFiles : List DiskFile)
    (lvl : Nat) (e : String) (he : e ∉ entities) :
    (missingCsvFindings entities diskFiles lvl).countP (isInfoAbout e) = 0 := by
  induction entities with
  | nil => rfl
  | cons n ns ih =>
    have hne : e ≠ n := fun hc => he (hc ▸ List.mem_cons_self n ns)
    have hns : e ∉ ns := fun hc => he (List.mem_cons_of_mem n hc)
    rw [missingCsvFindings_cons, List.countP_append, ih hns]
    split
    · simp [isInfoAbout, hne.symm]
    · rfl

/-- A listed entity without a strictly named file is the subject of
exactly one missing-file record at trace level 2. -/
theorem missingCsvFindings_count_mem (entities : List String) (diskFiles : List DiskFile)
    (e : String) (hnd : entities.Nodup) (he : e ∈ entities)
    (hnf : ∀ f ∈ diskFiles, f.actualName ≠ strictFileName e) :
    (missingCsvFindings entities diskFiles 2).countP (isInfoAbout e) = 1 := by
  induction entities with
  | nil => cases he
  | cons n ns ih =>
    have hnda := List.nodup_cons.mp hnd
    rcases List.mem_cons.mp he with rfl | hens
    · have hany : diskFiles.any (fun f => f.actualName == strictFileName e) = false := by
        refine List.any_eq_false.mpr ?_
        intro f hf
        simpa using hnf f hf
      rw [missingCsvFindings_cons, List.countP_append,
        missingCsvFindings_count_notMem ns diskFiles 2 e hnda.1, hany]
      simp [isInfoAbout]
    · have hne : e ≠ n := fun hc => hnda.1 (hc ▸ hens)
      rw [missingCsvFindings_cons, List.countP_append, ih hnda.2 hens]
      split
      · simp [isInfoAbout, hne.symm]
      · rfl

/-- C7 (counterexample): the claim fails in the degenerate run with no
discovered CSV files: `sales.Order` has no corresponding file, yet at
verbosity 2 the run aborts early (the source returns after reporting
"No CSV files found") and emits no informational record at all. -/
theorem c7_counterexample :
    "sales.Order" ∈ entityNames csn0 ∧
      validateCsvFilenamesRun csn0 [] 2 = none ∧
      (runFindings (validateCsvFilenamesRun csn0 [] 2)).countP (isInfoAbout "sales.Order") = 0 :=
  ⟨by decide, rfl, rfl⟩

/-- C7 (amended): provided at least one CSV file was discovered (with an
empty file list the run aborts early and reports nothing), an entity
with no strictly named file is the subject of exactly one informational
record at verbosity 2 and of none below, and at every verbosity the
run's error and warning counts are exactly those of the per-file loop —
the informational pass never contributes to either count. -/
theorem c7_missing_file_reporting (csn : CSN) (diskFiles : List DiskFile) (e : String)
    (hnd : (csn.definitions.map (fun p => p.1)).Nodup)
    (hne : diskFiles.isEmpty = false)
    (hent : e ∈ entityNames csn)
    (hnf : ∀ f ∈ diskFiles, f.actualName ≠ strictFileName e) :
    (runFindings (validateCsvFilenamesRun csn diskFiles 2)).countP (isInfoAbout e) = 1 ∧
    (∀ lvl, lvl < 2 →
      (runFindings (validateCsvFilenamesRun csn diskFiles lvl)).countP (isInfoAbout e) = 0) ∧
    (∀ lvl, (validateCsvFilenamesRun csn diskFiles lvl).map (fun t => (t.1, t.2.1)) =
      some (fileLoopCounts (entityNames csn) lvl diskFiles)) := by
  have hloop : ∀ lvl, (fileLoopFindings (entityNames csn) lvl diskFiles).countP
      (isInfoAbout e) = 0 := by
    intro lvl
    refine List.countP_eq_zero.mpr ?_
    intro fd hfd
    have hsev := fileLoopFindings_no_info (entityNames csn) lvl diskFiles fd hfd
    simp [isInfoAbout, hsev]
  refine ⟨?_, ?_, ?_⟩
  · rw [show runFindings (validateCsvFilenamesRun csn diskFiles 2) =
        fileLoopFindings (entityNames csn) 2 diskFiles ++
          missingCsvFindings (entityNames csn) diskFiles 2 by
      simp [validateCsvFilenamesRun, runFindings, hne]]
    rw [List.countP_append, hloop 2,
      missingCsvFindings_count_mem (entityNames csn) diskFiles e
        (entityNames_nodup csn hnd) hent hnf]
  · intro lvl hl
    rw [show runFindings (validateCsvFilenamesRun csn diskFiles lvl) =
        fileLoopFindings (entityNames csn) lvl diskFiles ++
          missingCsvFindings (entityNames csn) diskFiles lvl by
      simp [validateCsvFilenamesRun, runFindings, hne]]
    rw [List.countP_append, hloop lvl, missingCsvFindings_low_level _ _ _ hl]
    rfl
  · intro lvl
    simp [validateCsvFilenamesRun, hne]

/-- C7 (witness): on a model holding only `sales.Order` and a single
unrelated discovered file, the amended reporting property instantiated
at verbosity 2 and 0. -/
theorem c7_witness :
    ((csn0.definitions.map (fun p => p.1)).Nodup ∧
        ([DiskFile.mk "other.csv" "other.csv" "db/data"] : List DiskFile).isEmpty = false ∧
        "sales.Order" ∈ entityNames csn0) ∧
      (runFindings (validateCsvFilenamesRun csn0 [DiskFile.mk "other.csv" "other.csv" "db/data"] 2)).countP
          (isInfoAbout "sales.Order") = 1 :=
  ⟨⟨by decide, by decide, by decide⟩,
    (c7_missing_file_reporting csn0 [DiskFile.mk "other.csv" "other.csv" "db/data"] "sales.Order"
      (by decide) (by decide) (by decide) (by decide)).1⟩

end Captools
